import Mathlib

/-!
Verification of the visa-analysis batch pipeline
(`src/jobs/visualisation.py`) against its natural-language specification.

The pipeline is: load CSV → clean (rename columns, drop all-null rows,
project to year/country/issued-count) → correct country names by fuzzy
matching → map countries to continents → three grouped-sum SQL queries
(Q1 by year+continent, Q2 by country for 2017, Q3 by year+country) →
charts and CSV export.

The embedding below models each stage as an executable Lean function.
Tables are lists of rows; SQL null semantics (three-valued filters,
null-skipping SUM) are made explicit.
-/

namespace Visa

/-! ### Cleaner, step (a): column renaming

The source computes
`col_name.replace(' ', '_').replace('/', '').replace('.', '').replace(',', '')`
for every column name.  Python's `str.replace(old, new)` for a single-char
`old` rewrites every occurrence of that character; we embed it on `List Char`.
-/

/-- Python `s.replace(old, new)` for a one-character pattern `old`:
every occurrence of `old` is replaced by the string `new`
(as a character list; `new = []` deletes the character). -/
def pyReplace (old : Char) (new : List Char) : List Char → List Char
  | [] => []
  | c :: cs => (if c = old then new else [c]) ++ pyReplace old new cs

/-- The per-column renaming of the source:
`.replace(' ', '_').replace('/', '').replace('.', '').replace(',', '')`. -/
def cleanColName (s : String) : String :=
  ⟨pyReplace ',' [] (pyReplace '.' [] (pyReplace '/' [] (pyReplace ' ' ['_'] s.data)))⟩

/-- `new_column_names` of the source: the renaming applied to every column. -/
def new_column_names (cols : List String) : List String :=
  cols.map cleanColName

/-- The spec's claimed renaming (claim C1 as written): all occurrences of
space, slash, period and comma are DELETED. -/
def deleteColNameSpec (s : String) : String :=
  ⟨s.data.filter (fun c => !(c = ' ' || c = '/' || c = '.' || c = ','))⟩

/-- Single-pass character rewriting actually performed by the source:
a space becomes an underscore; slash, period, comma are deleted;
every other character is kept. -/
def cleanCharSpec (c : Char) : Option Char :=
  if c = ' ' then some '_'
  else if c = '/' || c = '.' || c = ',' then none
  else some c

theorem pyReplace_append (old : Char) (new : List Char) (l₁ l₂ : List Char) :
    pyReplace old new (l₁ ++ l₂) = pyReplace old new l₁ ++ pyReplace old new l₂ := by
  induction l₁ with
  | nil => rfl
  | cons c cs ih => simp [pyReplace, ih]

theorem cleanColName_data (s : String) :
    (cleanColName s).data = s.data.filterMap cleanCharSpec := by
  show pyReplace ',' [] (pyReplace '.' [] (pyReplace '/' [] (pyReplace ' ' ['_'] s.data)))
      = s.data.filterMap cleanCharSpec
  induction s.data with
  | nil => rfl
  | cons c cs ih =>
    by_cases h1 : c = ' '
    · subst h1
      simp [pyReplace, pyReplace_append, cleanCharSpec] at ih ⊢
      exact ih
    · by_cases h2 : c = '/'
      · subst h2
        simp [pyReplace, pyReplace_append, cleanCharSpec] at ih ⊢
        exact ih
      · by_cases h3 : c = '.'
        · subst h3
          simp [pyReplace, pyReplace_append, cleanCharSpec] at ih ⊢
          exact ih
        · by_cases h4 : c = ','
          · subst h4
            simp [pyReplace, pyReplace_append, cleanCharSpec] at ih ⊢
            exact ih
          · simp [pyReplace, pyReplace_append, cleanCharSpec, h1, h2, h3, h4] at ih ⊢
            exact ih

/-! ### Cleaner, steps (b) and (c): drop all-null rows, project columns

The source runs `df.dropna(how='all')` and then
`df.select('year', 'country', 'number_of_issued_numerical')`.
A raw table is a list of column names plus rows of nullable cells.
-/

/-- A cell value of the loaded CSV (types are inferred per column:
numeric columns become numbers, the rest strings). -/
inductive Val where
  | int : Int → Val
  | str : String → Val
deriving DecidableEq, Repr

/-- A raw dataframe: named columns and rows of nullable cells. -/
structure RawTable where
  columns : List String
  rows : List (List (Option Val))
deriving DecidableEq, Repr

/-- `df.dropna(how='all')`: keep exactly the rows having at least one
non-null cell. -/
def dropna_all (t : RawTable) : RawTable :=
  ⟨t.columns, t.rows.filter (fun r => r.any Option.isSome)⟩

/-- `df.select(n₁, …, nₖ)`: project to the named columns (in the given
order); fails if a requested column is absent (Spark raises there). -/
def selectCols (names : List String) (t : RawTable) : Option RawTable :=
  if names.all (fun n => t.columns.contains n) then
    some ⟨names,
      t.rows.map (fun r => names.map (fun n => r.getD (t.columns.indexOf n) none))⟩
  else none

/-- The whole cleaning stage of the source: rename the columns, drop
all-null rows, project to year, country and issued-count. -/
def cleanTable (t : RawTable) : Option RawTable :=
  selectCols ["year", "country", "number_of_issued_numerical"]
    (dropna_all ⟨new_column_names t.columns, t.rows⟩)

theorem length_filter_add_length_filter_not (p : α → Bool) (l : List α) :
    (l.filter p).length + (l.filter (fun a => !(p a))).length = l.length := by
  induction l with
  | nil => rfl
  | cons a l ih =>
    cases h : p a <;> simp [List.filter_cons, h] <;> omega

/-- A cleaning-stage input witnessing that `dropna(how='all')` does not
guarantee a non-null year: the single row has a null year and a null
issued-count but a non-null country, so it is retained. -/
def c2Table : RawTable :=
  ⟨["year", "country", "number_of_issued_numerical"],
   [[none, some (Val.str "France"), none]]⟩

/-- The cleaned form of `c2Table`. -/
def c2Cleaned : RawTable :=
  ⟨["year", "country", "number_of_issued_numerical"],
   [[none, some (Val.str "France"), none]]⟩

/-! ### Country Corrector

`correct_country_name(name, threshold=85)` builds the canonical country
list and calls fuzzywuzzy's `process.extractOne(name, countries)`,
accepting the best match iff its score is at least 85, else returning the
input.  The fuzzy scorer lives in the external fuzzywuzzy library and is
abstracted as a parameter `score`; its documented contract (Levenshtein
ratio) is that scores lie in 0–100 and a score of 100 means equality.
-/

/-- fuzzywuzzy `process.extractOne` scan: keep the first best-scoring
choice (a later choice replaces the current best only with a strictly
greater score). -/
def extractOneAux (score : String → String → Nat) (query : String)
    (best : String × Nat) : List String → String × Nat
  | [] => best
  | c :: cs =>
      extractOneAux score query
        (if best.2 < score query c then (c, score query c) else best) cs

/-- fuzzywuzzy `process.extractOne`: the best (choice, score) pair, or
`none` on an empty choice list. -/
def extractOne (score : String → String → Nat) (query : String) :
    List String → Option (String × Nat)
  | [] => none
  | c :: cs => some (extractOneAux score query (c, score query c) cs)

/-- The acceptance threshold (the default argument `threshold=85`). -/
def threshold : Nat := 85

/-- `correct_country_name` of the source: the best fuzzy match when its
score reaches the threshold, the input unchanged otherwise.  The `none`
case models the TypeError Python raises when unpacking `extractOne`'s
result for an empty choice list. -/
def correct_country_name (score : String → String → Nat)
    (countries : List String) (name : String) : Option String :=
  match extractOne score name countries with
  | none => none
  | some (corrected, s) => some (if threshold ≤ s then corrected else name)

theorem extractOneAux_fst_mem (score : String → String → Nat) (q : String) :
    ∀ (l : List String) (best : String × Nat),
      (extractOneAux score q best l).1 = best.1
      ∨ (extractOneAux score q best l).1 ∈ l := by
  intro l
  induction l with
  | nil => intro best; left; rfl
  | cons c cs ih =>
    intro best
    simp only [extractOneAux]
    by_cases h : best.2 < score q c
    · simp only [h, if_true]
      rcases ih (c, score q c) with h1 | h1
      · right; rw [h1]; exact List.mem_cons_self c cs
      · right; exact List.mem_cons_of_mem c h1
    · simp only [h, if_false]
      rcases ih best with h1 | h1
      · left; exact h1
      · right; exact List.mem_cons_of_mem c h1

theorem extractOneAux_of_max (score : String → String → Nat) (q : String)
    (H1 : ∀ x y, score x y ≤ 100) :
    ∀ (l : List String) (best : String × Nat), best.2 = 100 →
      extractOneAux score q best l = best := by
  intro l
  induction l with
  | nil => intro best _; rfl
  | cons c cs ih =>
    intro best hb
    have hle : ¬ best.2 < score q c := by
      rw [hb]; exact Nat.not_lt.mpr (H1 q c)
    simp only [extractOneAux, hle, if_false]
    exact ih best hb

theorem extractOneAux_reaches (score : String → String → Nat) (q : String)
    (H1 : ∀ x y, score x y ≤ 100) (H2 : ∀ x y, score x y = 100 ↔ x = y) :
    ∀ (l : List String) (best : String × Nat), best.2 < 100 → q ∈ l →
      extractOneAux score q best l = (q, 100) := by
  intro l
  induction l with
  | nil => intro best _ hmem; exact absurd hmem (List.not_mem_nil q)
  | cons c cs ih =>
    intro best hlt hmem
    by_cases hc : c = q
    · have hs : score q c = 100 := (H2 q c).mpr hc.symm
      have hgt : best.2 < score q c := by rw [hs]; exact hlt
      show extractOneAux score q
          (if best.2 < score q c then (c, score q c) else best) cs = (q, 100)
      rw [if_pos hgt, hs, hc]
      exact extractOneAux_of_max score q H1 cs (q, 100) rfl
    · have hqcs : q ∈ cs := by
        rcases List.mem_cons.mp hmem with h | h
        · exact absurd h.symm hc
        · exact h
      have hclt : score q c < 100 := by
        rcases Nat.lt_or_ge (score q c) 100 with h | h
        · exact h
        · have h100 : score q c = 100 := Nat.le_antisymm (H1 q c) h
          exact absurd ((H2 q c).mp h100).symm hc
      show extractOneAux score q
          (if best.2 < score q c then (c, score q c) else best) cs = (q, 100)
      by_cases hrep : best.2 < score q c
      · rw [if_pos hrep]
        exact ih (c, score q c) hclt hqcs
      · rw [if_neg hrep]
        exact ih best hlt hqcs

theorem correct_country_name_eq (score : String → String → Nat)
    (countries : List String) (name b : String) (s : Nat)
    (h : extractOne score name countries = some (b, s)) :
    correct_country_name score countries name
      = some (if threshold ≤ s then b else name) := by
  unfold correct_country_name
  rw [h]

theorem extractOne_cons (score : String → String → Nat) (q c : String)
    (cs : List String) :
    extractOne score q (c :: cs)
      = some ((extractOneAux score q (c, score q c) cs).1,
              (extractOneAux score q (c, score q c) cs).2) := rfl

/-- A concrete scorer satisfying the fuzzy-matching contract, used to
instantiate the abstracted fuzzywuzzy scorer: 100 on equal strings,
0 otherwise. -/
def scoreEq (x y : String) : Nat :=
  if x = y then 100 else 0

/-! ### Continent Mapper

`get_continent_name(country_name)` chains three pycountry-convert lookups
(country name → alpha-2 code → continent code → continent name) inside a
`try`, returning `None` when any of them raises.  The three static lookup
tables live in the external library and are abstracted as `Option`-valued
functions: a `none` result stands for the KeyError the library raises on
an unknown key, which the bare `except:` turns into `None`. -/
def get_continent_name (nameToAlpha2 : String → Option String)
    (alpha2ToContCode : String → Option String)
    (contCodeToContName : String → Option String)
    (country_name : String) : Option String :=
  match nameToAlpha2 country_name with
  | none => none
  | some code =>
    match alpha2ToContCode code with
    | none => none
    | some cont_code =>
      match contCodeToContName cont_code with
      | none => none
      | some cont_name => some cont_name

/-- A tiny concrete instance of the three pycountry-convert lookup tables,
for evaluating the mapper: France → FR → EU → Europe. -/
def demoNameToAlpha2 (n : String) : Option String :=
  if n = "France" then some "FR" else none

/-- Alpha-2 → continent code for the concrete instance. -/
def demoAlpha2ToContCode (c : String) : Option String :=
  if c = "FR" then some "EU" else none

/-- Continent code → continent name for the concrete instance. -/
def demoContCodeToContName (c : String) : Option String :=
  if c = "EU" then some "Europe" else none

/-! ### Aggregator: the three Spark SQL grouped-sum queries

The cleaned and enriched dataframe is registered as the view
`global_temp.japan_visa` and queried three times.  SQL's three-valued
filter logic (a null in a comparison makes the predicate unknown, and
unknown rows are not selected) and `SUM`'s null-skipping (a group with
only nulls sums to null) are made explicit.
-/

/-- A row of the view `global_temp.japan_visa`: nullable year, country,
issued-count and continent, as produced by cleaning and enrichment. -/
structure Row where
  year : Option Int
  country : Option String
  number_of_issued_numerical : Option Int
  continent : Option String
deriving DecidableEq, Repr

/-- Q1's filter `continent IS NOT NULL`. -/
def q1Where (r : Row) : Bool :=
  r.continent.isSome

/-- Q2's filter `country NOT IN ('total', 'others') AND year = 2017`:
a null country or a null year makes the predicate unknown, so the row is
not selected. -/
def q2Where (r : Row) : Bool :=
  (match r.country with
   | none => false
   | some c => c != "total" && c != "others")
  && (match r.year with
      | none => false
      | some y => y == 2017)

/-- Q3's filter `country NOT IN ('total', 'others')`: a null country makes
the predicate unknown, so the row is not selected. -/
def q3Where (r : Row) : Bool :=
  match r.country with
  | none => false
  | some c => c != "total" && c != "others"

/-- SQL `SUM` over a nullable integer column: null values are skipped, and
a group with no non-null value sums to null. -/
def sqlSum (vs : List (Option Int)) : Option Int :=
  match vs.filterMap id with
  | [] => none
  | ns => some ns.sum

/-- Distinct elements in order of first occurrence (the group keys). -/
def keysAux [DecidableEq κ] (seen : List κ) : List κ → List κ
  | [] => []
  | k :: ks => if k ∈ seen then keysAux seen ks else k :: keysAux (k :: seen) ks

/-- The distinct group keys of a list, in order of first occurrence. -/
def dedupFirst [DecidableEq κ] (l : List κ) : List κ :=
  keysAux [] l

/-- `GROUP BY key` with `SUM(number_of_issued_numerical)`: one output pair
per distinct key, carrying the null-skipping sum over that key's rows. -/
def groupSumBy [DecidableEq κ] (key : Row → κ) (t : List Row) :
    List (κ × Option Int) :=
  (dedupFirst (t.map key)).map
    (fun k => (k, sqlSum ((t.filter (fun r => key r = k)).map
      Row.number_of_issued_numerical)))

/-- `ORDER BY visa_issued DESC` on nullable sums: larger sums first, null
sums last (Spark's default null ordering for a descending sort). -/
def sumDescLe : Option Int → Option Int → Prop
  | _, none => True
  | none, some _ => False
  | some x, some y => y ≤ x

instance : DecidableRel sumDescLe := fun a b =>
  match a, b with
  | none, none => isTrue trivial
  | some _, none => isTrue trivial
  | none, some _ => isFalse (fun h => h)
  | some x, some y => inferInstanceAs (Decidable (y ≤ x))

instance : IsTotal (Option Int) sumDescLe :=
  ⟨by intro a b; cases a <;> cases b <;> simp [sumDescLe] <;> omega⟩

instance : IsTrans (Option Int) sumDescLe :=
  ⟨by intro a b c hab hbc
      cases a <;> cases b <;> cases c <;> simp_all [sumDescLe] <;> omega⟩

/-- `ORDER BY year` (ascending) on nullable years: null years first
(Spark's default null ordering for an ascending sort). -/
def yearAscLe : Option Int → Option Int → Prop
  | none, _ => True
  | some _, none => False
  | some x, some y => x ≤ y

instance : DecidableRel yearAscLe := fun a b =>
  match a, b with
  | none, none => isTrue trivial
  | none, some _ => isTrue trivial
  | some _, none => isFalse (fun h => h)
  | some x, some y => inferInstanceAs (Decidable (x ≤ y))

instance : IsTotal (Option Int) yearAscLe :=
  ⟨by intro a b; cases a <;> cases b <;> simp [yearAscLe] <;> omega⟩

instance : IsTrans (Option Int) yearAscLe :=
  ⟨by intro a b c hab hbc
      cases a <;> cases b <;> cases c <;> simp_all [yearAscLe] <;> omega⟩

/-- Q2's sort order, lifted to output pairs (country, visa_issued). -/
def q2Le (a b : Option String × Option Int) : Prop :=
  sumDescLe a.2 b.2

instance : DecidableRel q2Le := fun a b =>
  inferInstanceAs (Decidable (sumDescLe a.2 b.2))

instance : IsTotal (Option String × Option Int) q2Le :=
  ⟨fun a b => IsTotal.total (r := sumDescLe) a.2 b.2⟩

instance : IsTrans (Option String × Option Int) q2Le :=
  ⟨fun _ _ _ hab hbc => IsTrans.trans (r := sumDescLe) _ _ _ hab hbc⟩

/-- Q3's sort order, lifted to output pairs ((year, country), visa_issued). -/
def q3Le (a b : (Option Int × Option String) × Option Int) : Prop :=
  yearAscLe a.1.1 b.1.1

instance : DecidableRel q3Le := fun a b =>
  inferInstanceAs (Decidable (yearAscLe a.1.1 b.1.1))

instance : IsTotal ((Option Int × Option String) × Option Int) q3Le :=
  ⟨fun a b => IsTotal.total (r := yearAscLe) a.1.1 b.1.1⟩

instance : IsTrans ((Option Int × Option String) × Option Int) q3Le :=
  ⟨fun _ _ _ hab hbc => IsTrans.trans (r := yearAscLe) _ _ _ hab hbc⟩

/-- Q1 (`df_cont`): `SELECT year, continent, SUM(...) ... WHERE continent
IS NOT NULL GROUP BY year, continent`. -/
def df_cont (t : List Row) : List ((Option Int × Option String) × Option Int) :=
  groupSumBy (fun r => (r.year, r.continent)) (t.filter q1Where)

/-- Q2 (`df_country`): `SELECT country, SUM(...) ... WHERE country NOT IN
('total', 'others') AND year = 2017 GROUP BY country ORDER BY visa_issued
DESC LIMIT 10`. -/
def df_country (t : List Row) : List (Option String × Option Int) :=
  (List.insertionSort q2Le (groupSumBy Row.country (t.filter q2Where))).take 10

/-- Q3 (`df_geo`): `SELECT year, country, SUM(...) ... WHERE country NOT
IN ('total', 'others') GROUP BY year, country ORDER BY year`. -/
def df_geo (t : List Row) : List ((Option Int × Option String) × Option Int) :=
  List.insertionSort q3Le (groupSumBy (fun r => (r.year, r.country)) (t.filter q3Where))

theorem mem_keysAux [DecidableEq κ] {x : κ} :
    ∀ (l seen : List κ), x ∈ keysAux seen l → x ∈ l := by
  intro l
  induction l with
  | nil => intro seen h; exact absurd h (List.not_mem_nil x)
  | cons k ks ih =>
    intro seen h
    by_cases hk : k ∈ seen
    · simp only [keysAux, hk, if_true] at h
      exact List.mem_cons_of_mem k (ih seen h)
    · simp only [keysAux, hk, if_false] at h
      rcases List.mem_cons.mp h with h1 | h1
      · exact h1 ▸ List.mem_cons_self k ks
      · exact List.mem_cons_of_mem k (ih (k :: seen) h1)

theorem mem_dedupFirst [DecidableEq κ] {x : κ} {l : List κ}
    (h : x ∈ dedupFirst l) : x ∈ l :=
  mem_keysAux l [] h

theorem groupSumBy_mem [DecidableEq κ] (key : Row → κ) (t : List Row)
    (p : κ × Option Int) (hp : p ∈ groupSumBy key t) :
    (∃ r ∈ t, key r = p.1)
    ∧ p.2 = sqlSum ((t.filter (fun r => key r = p.1)).map
        Row.number_of_issued_numerical) := by
  unfold groupSumBy at hp
  rcases List.mem_map.mp hp with ⟨k, hk, hpk⟩
  have hkmem : k ∈ t.map key := mem_dedupFirst hk
  rcases List.mem_map.mp hkmem with ⟨r, hr, hrk⟩
  constructor
  · exact ⟨r, hr, by rw [hrk, ← hpk]⟩
  · rw [← hpk]

/-- The rows of Q1's group keyed `k` (a (year, continent) pair). -/
def q1GroupRows (t : List Row) (k : Option Int × Option String) : List Row :=
  (t.filter q1Where).filter (fun r => (r.year, r.continent) = k)

/-- The rows of Q2's group keyed by a country value. -/
def q2GroupRows (t : List Row) (c : Option String) : List Row :=
  (t.filter q2Where).filter (fun r => r.country = c)

/-- The rows of Q3's group keyed `k` (a (year, country) pair). -/
def q3GroupRows (t : List Row) (k : Option Int × Option String) : List Row :=
  (t.filter q3Where).filter (fun r => (r.year, r.country) = k)

/-- What SQL `SUM` yields on a group: the sum of the non-null values when
there is at least one, null when every value of the group is null. -/
def sumSpec (vs : List (Option Int)) (o : Option Int) : Prop :=
  (vs.filterMap id ≠ [] ∧ o = some (vs.filterMap id).sum)
  ∨ (vs.filterMap id = [] ∧ o = none)

theorem sqlSum_spec (vs : List (Option Int)) : sumSpec vs (sqlSum vs) := by
  unfold sumSpec sqlSum
  cases h : vs.filterMap id with
  | nil => right; exact ⟨rfl, rfl⟩
  | cons n ns => left; exact ⟨by simp, rfl⟩

theorem df_country_mem_group (t : List Row) (p : Option String × Option Int)
    (hp : p ∈ df_country t) :
    p ∈ groupSumBy Row.country (t.filter q2Where) :=
  (List.mem_insertionSort q2Le).mp (List.take_subset 10 _ hp)

theorem df_geo_mem_group (t : List Row)
    (p : (Option Int × Option String) × Option Int) (hp : p ∈ df_geo t) :
    p ∈ groupSumBy (fun r => (r.year, r.country)) (t.filter q3Where) :=
  (List.mem_insertionSort q3Le).mp hp

theorem q2Where_spec {r : Row} (h : q2Where r = true) :
    ∃ c, r.country = some c ∧ c ≠ "total" ∧ c ≠ "others"
      ∧ r.year = some 2017 := by
  cases hc : r.country with
  | none => simp [q2Where, hc] at h
  | some c =>
    cases hy : r.year with
    | none => simp [q2Where, hc, hy] at h
    | some y =>
      simp only [q2Where, hc, hy, Bool.and_eq_true, bne_iff_ne, ne_eq,
        beq_iff_eq] at h
      exact ⟨c, rfl, h.1.1, h.1.2, by rw [h.2]⟩

/-- The Q2 scenario table of the spec: rows (2017, FR, 100), (2017, US,
300), (2017, total, 400), before enrichment adds a continent. -/
def c6Table : List Row :=
  [⟨some 2017, some "FR", some 100, none⟩,
   ⟨some 2017, some "US", some 300, none⟩,
   ⟨some 2017, some "total", some 400, none⟩]

/-- A one-row table whose single 2017 group has a null issued-count. -/
def c7Table : List Row :=
  [⟨some 2017, some "FR", none, none⟩]

end Visa

/-!  Claim theorems for C1.  -/

/-- C1 (counterexample): the claim says spaces are deleted from column
names, but the source replaces each space with an underscore.  On the
column name "number of issued_numerical" the source produces
"number_of_issued_numerical", while deletion would produce
"numberofissued_numerical"; the two differ. -/
theorem C1_counterexample :
    Visa.new_column_names ["number of issued_numerical"]
      = ["number_of_issued_numerical"]
    ∧ Visa.deleteColNameSpec "number of issued_numerical"
      = "numberofissued_numerical"
    ∧ ("number_of_issued_numerical" : String) ≠ "numberofissued_numerical" := by
  refine ⟨rfl, rfl, ?_⟩
  decide

/-- C1 (amended): the Cleaner rewrites every column name character-wise:
each space becomes an underscore, each slash, period and comma is deleted,
and every other character is kept unchanged; `new_column_names` applies
this rewriting to every column name. -/
theorem C1_amended_thm (cols : List String) (s : String) :
    Visa.new_column_names cols = cols.map Visa.cleanColName
    ∧ (Visa.cleanColName s).data = s.data.filterMap Visa.cleanCharSpec :=
  ⟨rfl, Visa.cleanColName_data s⟩

/-!  Claim theorems for C2 and C3.  -/

/-- C2 (counterexample): the claim says every record retained by the
cleaning stage has a non-null year, but a row whose year and issued-count
are null while its country is non-null survives `dropna(how='all')` and
the projection; its year cell (column index 0, the "year" column) is null. -/
theorem C2_counterexample :
    Visa.cleanTable Visa.c2Table = some Visa.c2Cleaned
    ∧ Visa.c2Cleaned.columns.indexOf "year" = 0
    ∧ Visa.c2Cleaned.rows = [[none, some (Visa.Val.str "France"), none]]
    ∧ ((Visa.c2Cleaned.rows.getD 0 []).getD 0 none) = none := by
  refine ⟨?_, by decide, rfl, rfl⟩
  decide

/-- C2 (amended): after the drop of fully-empty rows, every retained record
has at least one non-null field among the original columns; the projection
to year, country and issued-count does not guarantee a non-null year or
country — any of the three projected fields may individually be null. -/
theorem C2_amended_thm (t : Visa.RawTable) (r : List (Option Visa.Val))
    (h : r ∈ (Visa.dropna_all t).rows) : r.any Option.isSome = true :=
  (List.mem_filter.mp h).2

/-- C2 witness: the amended invariant evaluated on the concrete table. -/
theorem C2_amended_witness :
    [none, some (Visa.Val.str "France"), none].any Option.isSome = true :=
  C2_amended_thm Visa.c2Table [none, some (Visa.Val.str "France"), none]
    (by decide)

/-- C3: `dropna(how='all')` drops exactly the all-null rows: a row all of
whose cells are null is not retained, a row with at least one non-null cell
is retained, and the retained row count is the original count minus the
number of all-null rows. -/
theorem C3_thm (t : Visa.RawTable) :
    (∀ r ∈ t.rows, (∀ c ∈ r, c = none) → r ∉ (Visa.dropna_all t).rows)
    ∧ (∀ r ∈ t.rows, r.any Option.isSome = true → r ∈ (Visa.dropna_all t).rows)
    ∧ (Visa.dropna_all t).rows.length
        = t.rows.length
          - (t.rows.filter (fun r => !(r.any Option.isSome))).length := by
  refine ⟨?_, ?_, ?_⟩
  · intro r _ hall hmem
    have hpred := (List.mem_filter.mp hmem).2
    rw [List.any_eq_true] at hpred
    obtain ⟨c, hc, hsome⟩ := hpred
    have := hall c hc
    subst this
    simp at hsome
  · intro r hr hpred
    exact List.mem_filter.mpr ⟨hr, hpred⟩
  · have := Visa.length_filter_add_length_filter_not
      (fun r => r.any Option.isSome) t.rows
    simp only [Visa.dropna_all]
    omega

/-- C3 witness: on the concrete two-row table with one all-null row,
the all-null row is dropped and the non-null row is retained. -/
theorem C3_witness :
    [(none : Option Visa.Val)]
        ∉ (Visa.dropna_all ⟨["year"], [[none], [some (Visa.Val.int 3)]]⟩).rows
    ∧ [some (Visa.Val.int 3)]
        ∈ (Visa.dropna_all ⟨["year"], [[none], [some (Visa.Val.int 3)]]⟩).rows :=
  ⟨(C3_thm ⟨["year"], [[none], [some (Visa.Val.int 3)]]⟩).1
      [none] (by decide) (by decide),
   (C3_thm ⟨["year"], [[none], [some (Visa.Val.int 3)]]⟩).2.1
      [some (Visa.Val.int 3)] (by decide) (by decide)⟩

/-!  Claim theorems for C4 and C10.  -/

/-- C4: under the fuzzy scorer's contract (scores bounded by 100, score
100 exactly on equal strings), `correct_country_name` returns the best
match when its score reaches the threshold 85 and the input unchanged
otherwise; in particular an input equal to a canonical country name is
returned unchanged, and an input whose best match scores below 85 is
returned unchanged. -/
theorem C4_thm (score : String → String → Nat) (countries : List String)
    (name : String)
    (H1 : ∀ x y, score x y ≤ 100) (H2 : ∀ x y, score x y = 100 ↔ x = y) :
    (name ∈ countries →
      Visa.correct_country_name score countries name = some name)
    ∧ (∀ b s, Visa.extractOne score name countries = some (b, s) →
        s < Visa.threshold →
        Visa.correct_country_name score countries name = some name)
    ∧ (∀ b s, Visa.extractOne score name countries = some (b, s) →
        Visa.threshold ≤ s →
        Visa.correct_country_name score countries name = some b) := by
  refine ⟨?_, ?_, ?_⟩
  · intro hmem
    cases countries with
    | nil => exact absurd hmem (List.not_mem_nil name)
    | cons c cs =>
      have hone : Visa.extractOne score name (c :: cs) = some (name, 100) := by
        rw [Visa.extractOne_cons]
        by_cases hc : c = name
        · have hs : score name c = 100 := (H2 name c).mpr hc.symm
          rw [Visa.extractOneAux_of_max score name H1 cs (c, score name c)
            hs, hs, hc]
        · have hclt : score name c < 100 := by
            rcases Nat.lt_or_ge (score name c) 100 with h | h
            · exact h
            · have h100 : score name c = 100 := Nat.le_antisymm (H1 name c) h
              exact absurd ((H2 name c).mp h100).symm hc
          have hmemcs : name ∈ cs := by
            rcases List.mem_cons.mp hmem with h | h
            · exact absurd h.symm hc
            · exact h
          rw [Visa.extractOneAux_reaches score name H1 H2 cs
            (c, score name c) hclt hmemcs]
      rw [Visa.correct_country_name_eq score (c :: cs) name name 100 hone]
      simp
  · intro b s hone hlt
    rw [Visa.correct_country_name_eq score countries name b s hone,
      if_neg (Nat.not_le.mpr hlt)]
  · intro b s hone hge
    rw [Visa.correct_country_name_eq score countries name b s hone,
      if_pos hge]

/-- C4 witness: with the concrete scorer satisfying the contract, the
canonical input "France" is returned unchanged. -/
theorem C4_witness :
    Visa.correct_country_name Visa.scoreEq ["France", "Germany"] "France"
      = some "France" :=
  (C4_thm Visa.scoreEq ["France", "Germany"] "France"
    (fun x y => by by_cases h : x = y <;> simp [Visa.scoreEq, h])
    (fun x y => by by_cases h : x = y <;> simp [Visa.scoreEq, h])).1
    (by simp)

/-- C10: whatever scorer the fuzzy library supplies, the output of
`correct_country_name` is either the input string itself or an element of
the canonical country list. -/
theorem C10_thm (score : String → String → Nat) (countries : List String)
    (name r : String)
    (h : Visa.correct_country_name score countries name = some r) :
    r = name ∨ r ∈ countries := by
  cases countries with
  | nil => exact absurd h (by simp [Visa.correct_country_name, Visa.extractOne])
  | cons c cs =>
    rw [Visa.correct_country_name_eq score (c :: cs) name
      (Visa.extractOneAux score name (c, score name c) cs).1
      (Visa.extractOneAux score name (c, score name c) cs).2
      (Visa.extractOne_cons score name c cs)] at h
    simp only [Option.some.injEq] at h
    rcases le_or_lt Visa.threshold
        (Visa.extractOneAux score name (c, score name c) cs).2 with hc | hc
    · rw [if_pos hc] at h
      right
      rw [← h]
      rcases Visa.extractOneAux_fst_mem score name cs (c, score name c)
        with h1 | h1
      · rw [h1]; exact List.mem_cons_self c cs
      · exact List.mem_cons_of_mem c h1
    · rw [if_neg (Nat.not_le.mpr hc)] at h
      left
      exact h.symm

/-- C10 witness: the near-miss input "Frnce" scores 0 against the list
["France"] under the concrete scorer, so it is passed through, and indeed
the output is the input itself. -/
theorem C10_witness : "Frnce" = "Frnce" ∨ "Frnce" ∈ ["France"] :=
  C10_thm Visa.scoreEq ["France"] "Frnce" "Frnce" (by decide)

/-!  Claim theorem for C5.  -/

/-- C5: the Continent Mapper is a total function that never propagates a
lookup failure: when the country → alpha-2 → continent-code →
continent-name chain succeeds it returns the mapped continent name, and
when any link fails it returns the absent value `none`. -/
theorem C5_thm (f g h : String → Option String) (c : String) :
    (∀ a cc n, f c = some a → g a = some cc → h cc = some n →
      Visa.get_continent_name f g h c = some n)
    ∧ (f c = none → Visa.get_continent_name f g h c = none)
    ∧ (∀ a, f c = some a → g a = none →
        Visa.get_continent_name f g h c = none)
    ∧ (∀ a cc, f c = some a → g a = some cc → h cc = none →
        Visa.get_continent_name f g h c = none)
    ∧ (Visa.get_continent_name f g h c = none
        ∨ ∃ n, Visa.get_continent_name f g h c = some n) := by
  refine ⟨?_, ?_, ?_, ?_, ?_⟩
  · intro a cc n h1 h2 h3
    simp only [Visa.get_continent_name, h1, h2, h3]
  · intro h1
    simp only [Visa.get_continent_name, h1]
  · intro a h1 h2
    simp only [Visa.get_continent_name, h1, h2]
  · intro a cc h1 h2 h3
    simp only [Visa.get_continent_name, h1, h2, h3]
  · cases hr : Visa.get_continent_name f g h c with
    | none => exact Or.inl rfl
    | some n => exact Or.inr ⟨n, rfl⟩

/-- C5 witness: on the concrete lookup tables, "France" resolves to
"Europe" through the chain, and the unknown string "Atlantis" yields the
absent value. -/
theorem C5_witness :
    Visa.get_continent_name Visa.demoNameToAlpha2 Visa.demoAlpha2ToContCode
        Visa.demoContCodeToContName "France" = some "Europe"
    ∧ Visa.get_continent_name Visa.demoNameToAlpha2 Visa.demoAlpha2ToContCode
        Visa.demoContCodeToContName "Atlantis" = none :=
  ⟨(C5_thm Visa.demoNameToAlpha2 Visa.demoAlpha2ToContCode
      Visa.demoContCodeToContName "France").1 "FR" "EU" "Europe"
      (by decide) (by decide) (by decide),
   (C5_thm Visa.demoNameToAlpha2 Visa.demoAlpha2ToContCode
      Visa.demoContCodeToContName "Atlantis").2.1 (by decide)⟩

/-!  Claim theorems for C6, C7, C8 and C9.  -/

/-- C6: Q2 keeps at most 10 rows, sorted descending by sum; every output
row's country comes from a 2017 row and differs from "total" and "others",
and its sum is the null-skipping sum of its group; on the spec's scenario
rows (2017, FR, 100), (2017, US, 300), (2017, total, 400) the output drops
"total" and ranks US (300) above FR (100). -/
theorem C6_thm (t : List Visa.Row) :
    (Visa.df_country t).length ≤ 10
    ∧ (Visa.df_country t).Pairwise Visa.q2Le
    ∧ (∀ p ∈ Visa.df_country t,
        (∃ c, p.1 = some c ∧ c ≠ "total" ∧ c ≠ "others")
        ∧ (∃ r ∈ t, Visa.q2Where r = true ∧ r.country = p.1)
        ∧ p.2 = Visa.sqlSum ((Visa.q2GroupRows t p.1).map
            Visa.Row.number_of_issued_numerical))
    ∧ Visa.df_country Visa.c6Table
        = [(some "US", some 300), (some "FR", some 100)] := by
  refine ⟨?_, ?_, ?_, ?_⟩
  · unfold Visa.df_country
    rw [List.length_take]
    exact min_le_left _ _
  · exact List.Pairwise.sublist (List.take_sublist 10 _)
      (List.sorted_insertionSort Visa.q2Le _)
  · intro p hp
    obtain ⟨⟨r, hr, hrc⟩, hsum⟩ :=
      Visa.groupSumBy_mem Visa.Row.country (t.filter Visa.q2Where) p
        (Visa.df_country_mem_group t p hp)
    have hrt : r ∈ t := (List.mem_filter.mp hr).1
    have hq2 : Visa.q2Where r = true := (List.mem_filter.mp hr).2
    obtain ⟨c, hc, ht1, ht2, _⟩ := Visa.q2Where_spec hq2
    exact ⟨⟨c, hrc.symm.trans hc, ht1, ht2⟩, ⟨r, hrt, hq2, hrc⟩, hsum⟩
  · decide

/-- C7 (counterexample): the claim says every group's sum equals the sum
of its non-null issued-counts, but a 2017 group whose only issued-count is
null gets a null sum from Q2, while the sum of its (zero) non-null values
is 0; null differs from 0. -/
theorem C7_counterexample :
    Visa.df_country Visa.c7Table = [(some "FR", (none : Option Int))]
    ∧ ([(none : Option Int)].filterMap id).sum = 0
    ∧ (none : Option Int) ≠ some 0 := by
  refine ⟨by decide, rfl, by decide⟩

/-- C7 (amended): in every grouped-sum query (Q1, Q2, Q3) nulls are
skipped: a group with at least one non-null issued-count gets the sum of
its non-null values, and a group all of whose issued-counts are null gets
a null sum. -/
theorem C7_amended_thm (t : List Visa.Row) :
    (∀ p ∈ Visa.df_cont t,
      Visa.sumSpec ((Visa.q1GroupRows t p.1).map
        Visa.Row.number_of_issued_numerical) p.2)
    ∧ (∀ p ∈ Visa.df_country t,
      Visa.sumSpec ((Visa.q2GroupRows t p.1).map
        Visa.Row.number_of_issued_numerical) p.2)
    ∧ (∀ p ∈ Visa.df_geo t,
      Visa.sumSpec ((Visa.q3GroupRows t p.1).map
        Visa.Row.number_of_issued_numerical) p.2) := by
  refine ⟨?_, ?_, ?_⟩
  · intro p hp
    have h := (Visa.groupSumBy_mem _ _ p hp).2
    rw [h]
    exact Visa.sqlSum_spec _
  · intro p hp
    have h := (Visa.groupSumBy_mem _ _ p (Visa.df_country_mem_group t p hp)).2
    rw [h]
    exact Visa.sqlSum_spec _
  · intro p hp
    have h := (Visa.groupSumBy_mem _ _ p (Visa.df_geo_mem_group t p hp)).2
    rw [h]
    exact Visa.sqlSum_spec _

/-- C8: the three aggregations are deterministic functions of the enriched
table: two runs on the same table give identical result tables. -/
theorem C8_thm (t₁ t₂ : List Visa.Row) (h : t₁ = t₂) :
    Visa.df_cont t₁ = Visa.df_cont t₂
    ∧ Visa.df_country t₁ = Visa.df_country t₂
    ∧ Visa.df_geo t₁ = Visa.df_geo t₂ := by
  subst h
  exact ⟨rfl, rfl, rfl⟩

/-- C8 witness: the three queries re-run on the concrete scenario table
give the same results. -/
theorem C8_witness :
    Visa.df_cont Visa.c6Table = Visa.df_cont Visa.c6Table
    ∧ Visa.df_country Visa.c6Table = Visa.df_country Visa.c6Table
    ∧ Visa.df_geo Visa.c6Table = Visa.df_geo Visa.c6Table :=
  C8_thm Visa.c6Table Visa.c6Table rfl

/-- C9: a null country fails the `country NOT IN ('total', 'others')`
filter of Q2 and Q3 (three-valued logic: the predicate is unknown), so
such a row contributes nothing to either aggregation, while Q1's filter
only requires a non-null continent. -/
theorem C9_thm :
    (∀ r : Visa.Row, Visa.q1Where r = r.continent.isSome)
    ∧ (∀ (r : Visa.Row) (t : List Visa.Row), r.country = none →
        Visa.q2Where r = false ∧ Visa.q3Where r = false
        ∧ Visa.df_country (r :: t) = Visa.df_country t
        ∧ Visa.df_geo (r :: t) = Visa.df_geo t) := by
  constructor
  · intro r
    rfl
  · intro r t hc
    have h2 : Visa.q2Where r = false := by simp [Visa.q2Where, hc]
    have h3 : Visa.q3Where r = false := by simp [Visa.q3Where, hc]
    have hf2 : (r :: t).filter Visa.q2Where = t.filter Visa.q2Where := by
      simp [List.filter_cons, h2]
    have hf3 : (r :: t).filter Visa.q3Where = t.filter Visa.q3Where := by
      simp [List.filter_cons, h3]
    refine ⟨h2, h3, ?_, ?_⟩
    · unfold Visa.df_country
      rw [hf2]
    · unfold Visa.df_geo
      rw [hf3]
